import Mathlib

/-!
Verification development for the buffered Firehose batch writer
(src/lib/firehose_writer.js).  The JavaScript class is embedded shallowly:

* configuration and constructor validation (`construct`);
* the in-memory buffer with `put`, threshold evaluation and `_flush`;
* the greedy chunk splitter `_splitIntoChunks`;
* the retry/delivery engine `_deliver` / `_handleGeneralFailure` /
  `_retryFailedRecords`, with the remote collaborator modelled as a
  function from the attempt index to the outcome of that remote call and
  the observable behaviour (remote calls, backoff waits) recorded as a
  list of events.

Byte payloads (node Buffers) are modelled as lists of naturals; only
their lengths matter to the engine.
-/

namespace FirehoseWriter

/-- A record payload (a node `Buffer`): an opaque byte list. -/
abbrev RecordData := List Nat

/-- Source constant `AWS_MAX_RECORD_SIZE = 1024000`. -/
def AWS_MAX_RECORD_SIZE : Nat := 1024000

/-- Source constant `AWS_MAX_BATCH_RECORDS = 500`. -/
def AWS_MAX_BATCH_RECORDS : Nat := 500

/-- Source constant `AWS_MAX_BATCH_SIZE = AWS_MAX_BATCH_RECORDS * AWS_MAX_RECORD_SIZE`. -/
def AWS_MAX_BATCH_SIZE : Nat := AWS_MAX_BATCH_RECORDS * AWS_MAX_RECORD_SIZE

/-- The validated, immutable configuration held on a constructed writer
instance (fields assigned in the constructor). -/
structure Cfg where
  streamName : String
  maxSize : Nat
  maxCount : Nat
  maxTimeout : Nat
  maxRetries : Nat
  retryInterval : Nat
  maxBatchCount : Nat
  maxBatchSize : Nat
deriving DecidableEq

/-- The caller-supplied options object: every recognized numeric option,
absent (`none`) when not given.  A supplied value of `0` is falsy in
JavaScript, so `options.x || d` still takes the default; `jsOrNat`
captures that. -/
structure WriterOptions where
  streamName : Option String
  maxSize : Option Nat
  maxCount : Option Nat
  maxTimeout : Option Nat
  maxRetries : Option Nat
  retryInterval : Option Nat
  maxBatchCount : Option Nat
  maxBatchSize : Option Nat
deriving DecidableEq

/-- JavaScript `x || d` for a possibly-absent numeric option
(`0` is falsy and falls back to the default). -/
def jsOrNat : Option Nat → Nat → Nat
  | none, d => d
  | some v, d => if v = 0 then d else v

/-- JavaScript truthiness of a possibly-absent string
(`undefined` and the empty string are falsy). -/
def truthyStr : Option String → Bool
  | none => false
  | some s => s ≠ ""

/-- The `validateParam` failures the constructor can raise, in source
order. -/
inductive CtorError
  | streamNameMissing
  | maxSizeTooLarge
  | maxCountTooLarge
  | maxBatchCountTooLarge
  | maxBatchSizeTooLarge
deriving DecidableEq

/-- The constructor: checks `streamName` truthiness, applies `||`
defaults, and validates each bounded option against the AWS ceilings in
source order.  `maxTimeout`, `maxRetries` and `retryInterval` are not
validated. -/
def construct (options : WriterOptions) : Except CtorError Cfg :=
  if truthyStr options.streamName = false then .error .streamNameMissing
  else
    let streamName := options.streamName.getD ""
    let maxSize := jsOrNat options.maxSize 100000000
    if AWS_MAX_BATCH_SIZE < maxSize then .error .maxSizeTooLarge
    else
      let maxCount := jsOrNat options.maxCount 500
      if AWS_MAX_BATCH_RECORDS < maxCount then .error .maxCountTooLarge
      else
        let maxTimeout := jsOrNat options.maxTimeout 10000
        let maxRetries := jsOrNat options.maxRetries 10
        let retryInterval := jsOrNat options.retryInterval 5000
        let maxBatchCount := jsOrNat options.maxBatchCount 500
        if AWS_MAX_BATCH_RECORDS < maxBatchCount then
          .error .maxBatchCountTooLarge
        else
          let maxBatchSize :=
            jsOrNat options.maxBatchSize (AWS_MAX_RECORD_SIZE * AWS_MAX_BATCH_RECORDS)
          if AWS_MAX_BATCH_SIZE < maxBatchSize then .error .maxBatchSizeTooLarge
          else
            .ok { streamName := streamName
                  maxSize := maxSize
                  maxCount := maxCount
                  maxTimeout := maxTimeout
                  maxRetries := maxRetries
                  retryInterval := retryInterval
                  maxBatchCount := maxBatchCount
                  maxBatchSize := maxBatchSize }

/-- A chunk accumulated by `_splitIntoChunks`: its records and its
running byte size. -/
structure Chunk where
  records : List RecordData
  size : Nat
deriving DecidableEq

/-- One step of the `reduce` callback in `_splitIntoChunks`: the head of
the accumulator is the current chunk (`acc[0]`); a fitting record is
appended to it, otherwise a fresh chunk holding the record is spliced in
at position 0.  The accumulator is never empty (the fold starts from a
singleton), so the `[]` case is unreachable. -/
def splitStep (cfg : Cfg) (acc : List Chunk) (record : RecordData) : List Chunk :=
  let recordSize := record.length
  match acc with
  | [] => []
  | chunk :: rest =>
    if chunk.size + recordSize ≤ cfg.maxBatchSize ∧
        chunk.records.length + 1 ≤ cfg.maxBatchCount then
      { records := chunk.records ++ [record], size := chunk.size + recordSize } :: rest
    else
      { records := [record], size := recordSize } :: chunk :: rest

/-- Source `_splitIntoChunks(records)`: a left fold of `splitStep` starting from
one empty chunk. -/
def splitIntoChunks (cfg : Cfg) (records : List RecordData) : List Chunk :=
  records.foldl (splitStep cfg) [{ records := [], size := 0 }]

/-- The mutable buffer state of a writer: `_buffer` and `_currentSize`. -/
structure WriterState where
  buffer : List RecordData
  currentSize : Nat
deriving DecidableEq

/-- Source `_oneOfThresholdsReached()`:
`_currentSize >= maxSize || _buffer.length >= maxCount`. -/
def oneOfThresholdsReached (cfg : Cfg) (s : WriterState) : Bool :=
  decide (cfg.maxSize ≤ s.currentSize) || decide (cfg.maxCount ≤ s.buffer.length)

/-- Source `_flush()`: no work when the buffer is empty; otherwise split the
buffer into chunks, reset `_buffer`/`_currentSize`, and dispatch one
`_deliver(chunk.records)` per chunk.  The second component is the list
of record sets handed to `_deliver`, in chunk order. -/
def flush (cfg : Cfg) (s : WriterState) : WriterState × List (List RecordData) :=
  if s.buffer.length = 0 then (s, [])
  else
    let chunks := splitIntoChunks cfg s.buffer
    (⟨[], 0⟩, chunks.map (fun chunk => chunk.records))

/-- A caller-supplied value passed to `put`:
`nullish` covers `null`, `undefined` and other falsy non-string input;
`str` is a JavaScript string; `buf` is a `Buffer`; `obj` is any other
(truthy) value together with its `Buffer.from(JSON.stringify(record))`
byte encoding. -/
inductive JSRecord
  | nullish
  | str (s : String)
  | buf (data : List Nat)
  | obj (encoded : List Nat)
deriving DecidableEq

/-- The byte payload `put` derives from its argument, when it does not
throw beforehand. -/
def encodeRecord : JSRecord → Option (List Nat)
  | .nullish => none
  | .str _ => none
  | .buf data => some data
  | .obj encoded => some encoded

/-- The synchronous throws of `put`, in source order. -/
inductive PutError
  | invalidArgument
  | stringsNotSupported
  | recordTooLarge (maxSizeBytes : Nat)
deriving DecidableEq

/-- Outcome of a `put` call: a synchronous throw leaves the state as it
was at the throw site; success returns the new state plus, when a
threshold triggered `_flush`, the record sets that flush dispatched. -/
inductive PutResult
  | threw (e : PutError) (s : WriterState)
  | ok (s : WriterState) (flushed : Option (List (List RecordData)))
deriving DecidableEq

/-- The tail of `put` after the argument checks: the size guard
(`data.length > maxSize` throws), the buffer push, the size update, and
the synchronous threshold-triggered `_flush`. -/
def putData (cfg : Cfg) (s : WriterState) (data : List Nat) : PutResult :=
  if cfg.maxSize < data.length then .threw (.recordTooLarge cfg.maxSize) s
  else
    let s1 : WriterState := ⟨s.buffer ++ [data], s.currentSize + data.length⟩
    if oneOfThresholdsReached cfg s1 then
      let fl := flush cfg s1
      .ok fl.1 (some fl.2)
    else
      .ok s1 none

/-- Source `put(record)`: the falsy guard, the string guard, `Buffer` pass
through or JSON encoding, then `putData`.  A falsy string hits the falsy
guard first, as in the source. -/
def put (cfg : Cfg) (s : WriterState) (record : JSRecord) : PutResult :=
  match record with
  | .nullish => .threw .invalidArgument s
  | .str str => if str = "" then .threw .invalidArgument s else .threw .stringsNotSupported s
  | .buf data => putData cfg s data
  | .obj encoded => putData cfg s encoded

/-! ## Delivery engine

`_deliver` submits the records to the collaborator and chains
`.then(response => _retryFailedRecords(records, response, retry + 1))
 .catch(err => _handleGeneralFailure(records, err, retry + 1))`.
The `.catch` also fires when the `.then` branch rejects, so a rejection
escaping `_retryFailedRecords` is routed through
`_handleGeneralFailure` at the same level.

Each recursion level performs at most one remote call and increments
`retry` by exactly one, so the call performed at retry level `k` is the
`k`-th remote call; the collaborator is therefore modelled as a function
from the retry level to the outcome of that call. -/

/-- A promise rejection value as seen by the `catch` handlers:
a falsy rejection (`!err` is true, hence retried), a collaborator error
carrying a `retryable` flag, or the internal retry-exhaustion `Error`
thrown by `_deliver` (a plain `Error`, whose `retryable` field is
`undefined`). -/
inductive RejectVal
  | nullish
  | external (retryable : Bool)
  | exhausted (batchSize : Nat) (streamName : String) (maxRetries : Nat)
deriving DecidableEq

/-- Source line `const canRetry = !err || err.retryable` in `_handleGeneralFailure`. -/
def canRetry : RejectVal → Bool
  | .nullish => true
  | .external retryable => retryable
  | .exhausted _ _ _ => false

/-- Outcome of one `putRecordBatch` remote call: fulfilment with the
per-record `RequestResponses` list (the `ErrorCode` of each entry, `none` or
empty meaning success), or rejection with an error value. -/
inductive CallResult
  | resolve (requestResponses : List (Option String))
  | reject (err : RejectVal)

/-- Observable actions of the delivery engine: a remote call carrying a
record set, or an awaited `delay(ms)`. -/
inductive Event
  | call (records : List RecordData)
  | wait (ms : Nat)
deriving DecidableEq

/-- JavaScript truthiness of the `ErrorCode` of a `RequestResponses` entry
(absent or empty string is falsy). -/
def errorCodeTruthy : Option String → Bool
  | none => false
  | some s => s ≠ ""

/-- Source expression
`response.RequestResponses.map((x, i) => x.ErrorCode && originalRecords[i]).filter(Boolean)`:
the records at positions whose response entry carries a truthy
`ErrorCode` (positions beyond `originalRecords` yield `undefined` and
are filtered out). -/
def failedRecords (originalRecords : List RecordData)
    (requestResponses : List (Option String)) : List RecordData :=
  requestResponses.enum.filterMap fun p =>
    if errorCodeTruthy p.2 then originalRecords[p.1]? else none

mutual

/-- Source `_deliver(records, retry)`: throw retry exhaustion past the budget;
otherwise make the remote call for this retry level and route its
outcome through `_retryFailedRecords` (fulfilment) or
`_handleGeneralFailure` (rejection, including a rejection escaping the
fulfilment branch).  Returns the settled result together with the list
of observable events in order. -/
def deliver (cfg : Cfg) (collab : Nat → CallResult) (records : List RecordData)
    (retry : Nat) : Except RejectVal Unit × List Event :=
  if _h : cfg.maxRetries < retry then
    (.error (.exhausted records.length cfg.streamName cfg.maxRetries), [])
  else
    match collab retry with
    | .reject err =>
      let r := handleGeneralFailure cfg collab records err (retry + 1)
      (r.1, .call records :: r.2)
    | .resolve responses =>
      let r := retryFailedRecords cfg collab records responses (retry + 1)
      match r.1 with
      | .ok _ => (.ok (), .call records :: r.2)
      | .error e =>
        let r2 := handleGeneralFailure cfg collab records e (retry + 1)
        (r2.1, .call records :: (r.2 ++ r2.2))
termination_by (cfg.maxRetries + 2 - retry, 0)

/-- Source `_handleGeneralFailure(originalRecords, err, retry)`: when
`!err || err.retryable`, await `delay(retryInterval)` and re-deliver the
same full record set; otherwise resolve with `undefined`. -/
def handleGeneralFailure (cfg : Cfg) (collab : Nat → CallResult)
    (originalRecords : List RecordData) (err : RejectVal) (retry : Nat) :
    Except RejectVal Unit × List Event :=
  if canRetry err then
    let r := deliver cfg collab originalRecords retry
    (r.1, .wait cfg.retryInterval :: r.2)
  else
    (.ok (), [])
termination_by (cfg.maxRetries + 2 - retry, 1)

/-- Source `_retryFailedRecords(originalRecords, response, retry)`: compute the
failed subset; when non-empty, await `delay(retryInterval)` first if the
whole attempt failed, then re-deliver exactly the failed subset;
when empty, resolve. -/
def retryFailedRecords (cfg : Cfg) (collab : Nat → CallResult)
    (originalRecords : List RecordData) (responses : List (Option String))
    (retry : Nat) : Except RejectVal Unit × List Event :=
  let failed := failedRecords originalRecords responses
  if failed.length ≠ 0 then
    let pre : List Event :=
      if failed.length = originalRecords.length then [.wait cfg.retryInterval] else []
    let r := deliver cfg collab failed retry
    (r.1, pre ++ r.2)
  else
    (.ok (), [])
termination_by (cfg.maxRetries + 2 - retry, 1)

end

/-! ## Splitter lemmas -/

/-- One `splitStep` keeps the accumulator non-empty and appends the new
record to the flattened reversed accumulator. -/
lemma splitStep_flat (cfg : Cfg) (c : Chunk) (t : List Chunk) (record : RecordData) :
    ((splitStep cfg (c :: t) record).reverse.map Chunk.records).flatten
        = (((c :: t).reverse.map Chunk.records).flatten) ++ [record]
      ∧ splitStep cfg (c :: t) record ≠ [] := by
  simp only [splitStep]
  split
  · simp
  · simp

/-- Folding `splitStep` over the input appends the input, in order, to
the flattened reversed accumulator. -/
lemma foldl_split_flat (cfg : Cfg) :
    ∀ (records : List RecordData) (acc : List Chunk), acc ≠ [] →
      ((records.foldl (splitStep cfg) acc).reverse.map Chunk.records).flatten
        = ((acc.reverse.map Chunk.records).flatten) ++ records := by
  intro records
  induction records with
  | nil => intro acc _; simp
  | cons record rest ih =>
    intro acc hacc
    obtain ⟨c, t, rfl⟩ : ∃ c t, acc = c :: t := by
      cases acc with
      | nil => exact absurd rfl hacc
      | cons c t => exact ⟨c, t, rfl⟩
    rw [List.foldl_cons, ih _ (splitStep_flat cfg c t record).2,
      (splitStep_flat cfg c t record).1]
    simp

/-- The per-chunk invariant: bounded size, bounded count, and the size
field is the sum of the record lengths. -/
def chunkInv (cfg : Cfg) (c : Chunk) : Prop :=
  c.size ≤ cfg.maxBatchSize ∧ c.records.length ≤ cfg.maxBatchCount ∧
    c.size = (c.records.map List.length).sum

/-- Step lemma: `splitStep` preserves `chunkInv` on every accumulator member, as
long as the incoming record fits one chunk by itself. -/
lemma splitStep_inv (cfg : Cfg) (acc : List Chunk) (record : RecordData)
    (hrec : record.length ≤ cfg.maxBatchSize) (hcount : 1 ≤ cfg.maxBatchCount)
    (hacc : ∀ c ∈ acc, chunkInv cfg c) :
    ∀ c ∈ splitStep cfg acc record, chunkInv cfg c := by
  match acc with
  | [] => intro c hc; simp [splitStep] at hc
  | chunk :: rest =>
    have hchunk := hacc chunk (by simp)
    have hrest : ∀ c ∈ rest, chunkInv cfg c := fun c hc => hacc c (by simp [hc])
    simp only [splitStep]
    split
    case isTrue hfits =>
      intro c hc
      rcases List.mem_cons.1 hc with hhead | htail
      · subst hhead
        refine ⟨hfits.1, by simpa using hfits.2, ?_⟩
        have hsum := hchunk.2.2
        simp only [List.map_append, List.sum_append, List.map_cons, List.map_nil,
          List.sum_cons, List.sum_nil]
        omega
      · exact hrest c htail
    case isFalse hfits =>
      intro c hc
      rcases List.mem_cons.1 hc with hhead | htail
      · subst hhead
        exact ⟨hrec, by simpa using hcount, by simp⟩
      · rcases List.mem_cons.1 htail with hc2 | ht
        · subst hc2; exact hchunk
        · exact hrest c ht

/-- Fold lemma: `chunkInv` holds for every chunk of the fold when every input record
fits one chunk by itself. -/
lemma foldl_split_inv (cfg : Cfg) (hcount : 1 ≤ cfg.maxBatchCount) :
    ∀ (records : List RecordData) (acc : List Chunk),
      (∀ r ∈ records, r.length ≤ cfg.maxBatchSize) →
      (∀ c ∈ acc, chunkInv cfg c) →
      ∀ c ∈ records.foldl (splitStep cfg) acc, chunkInv cfg c := by
  intro records
  induction records with
  | nil => intro acc _ hacc; simpa using hacc
  | cons record rest ih =>
    intro acc hrec hacc
    rw [List.foldl_cons]
    exact ih _ (fun r hr => hrec r (by simp [hr]))
      (splitStep_inv cfg acc record (hrec record (by simp)) hcount hacc)

/-- C4: the chunk splitter is the greedy single-pass algorithm with the
reversed-creation-order output contract: reversing the output and
concatenating the chunk record lists recovers the input exactly, and on
sizes `[500, 500, 1]` with a 1000-byte chunk limit it yields exactly
`[{ records := [r1], size := 1 }, { records := [r500a, r500b], size := 1000 }]`. -/
theorem C4_splitter_order :
    (∀ (cfg : Cfg) (records : List RecordData),
      ((splitIntoChunks cfg records).reverse.map Chunk.records).flatten = records)
    ∧ splitIntoChunks ⟨"test", 100000000, 500, 10000, 10, 5000, 500, 1000⟩
        [List.replicate 500 97, List.replicate 500 98, [99]]
      = [{ records := [[99]], size := 1 },
         { records := [List.replicate 500 97, List.replicate 500 98], size := 1000 }] := by
  constructor
  · intro cfg records
    unfold splitIntoChunks
    rw [foldl_split_flat cfg records [{ records := [], size := 0 }] (by simp)]
    simp
  · norm_num [splitIntoChunks, splitStep, List.length_replicate]

/-- C5: when every record fits within `maxBatchSize` and
`maxBatchCount ≥ 1`, every produced chunk respects both chunk limits and
records its exact byte size; and a lone record, regardless of size,
yields a chunk holding exactly that record. -/
theorem C5_chunk_invariants (cfg : Cfg) (records : List RecordData)
    (hrec : ∀ r ∈ records, r.length ≤ cfg.maxBatchSize)
    (hcount : 1 ≤ cfg.maxBatchCount) :
    (∀ chunk ∈ splitIntoChunks cfg records,
        chunk.size ≤ cfg.maxBatchSize ∧ chunk.records.length ≤ cfg.maxBatchCount ∧
          chunk.size = (chunk.records.map List.length).sum)
    ∧ ∀ r : RecordData, Chunk.mk [r] r.length ∈ splitIntoChunks cfg [r] := by
  constructor
  · intro chunk hchunk
    exact foldl_split_inv cfg hcount records [{ records := [], size := 0 }] hrec
      (by intro c hc; simp at hc; subst hc; exact ⟨by simp, by simp, by simp⟩) chunk hchunk
  · intro r
    simp only [splitIntoChunks, List.foldl_cons, List.foldl_nil, splitStep]
    split
    · simp
    · simp

/-- C5 witness: the invariants at a concrete configuration and input
(chunk byte limit 2), and the lone-oversized-record singleton (a
3-byte record still becomes a one-record chunk). -/
theorem C5_chunk_invariants_witness :
    ((Chunk.mk [[1]] 1).size ≤ (2 : Nat) ∧
        (Chunk.mk [[1]] 1).records.length ≤ (500 : Nat) ∧
        (Chunk.mk [[1]] 1).size = ((Chunk.mk [[1]] 1).records.map List.length).sum)
    ∧ Chunk.mk [[5, 5, 5]] 3
        ∈ splitIntoChunks ⟨"s", 100000000, 500, 10000, 10, 5000, 500, 2⟩ [[5, 5, 5]] := by
  have h := C5_chunk_invariants ⟨"s", 100000000, 500, 10000, 10, 5000, 500, 2⟩
    [[1]] (by decide) (by decide)
  refine ⟨h.1 (Chunk.mk [[1]] 1) (by decide), ?_⟩
  simpa using h.2 [5, 5, 5]

/-! ## Buffer and constructor claims -/

/-- A configuration with all constructor defaults and stream name `test`. -/
def cfgStd : Cfg := ⟨"test", 100000000, 500, 10000, 10, 5000, 500, 512000000⟩

/-- C6: `put` throws synchronously exactly for a missing record, a bare
string, or an encoded payload longer than `maxSize`; every throw leaves
the state exactly as it was. -/
theorem C6_put_throw_cases (cfg : Cfg) (st : WriterState) (record : JSRecord) :
    ((∃ e, put cfg st record = .threw e st) ↔
      (record = .nullish ∨ (∃ s, record = .str s) ∨
        ∃ data, encodeRecord record = some data ∧ cfg.maxSize < data.length))
    ∧ ∀ e s0, put cfg st record = .threw e s0 → s0 = st := by
  cases record with
  | nullish => simp [put]
  | str s => by_cases hs : s = "" <;> simp [put, hs]
  | buf data =>
    by_cases h : cfg.maxSize < data.length
    · simp [put, putData, encodeRecord, h]
    · simp only [put, putData, if_neg h, encodeRecord]
      constructor
      · split <;> simp [h]
      · split <;> simp
  | obj data =>
    by_cases h : cfg.maxSize < data.length
    · simp [put, putData, encodeRecord, h]
    · simp only [put, putData, if_neg h, encodeRecord]
      constructor
      · split <;> simp [h]
      · split <;> simp

/-- C6 witness: a bare string throws and leaves a non-empty buffer
untouched. -/
theorem C6_put_throw_cases_witness :
    ∃ e, put cfgStd ⟨[[1]], 1⟩ (.str "x") = .threw e ⟨[[1]], 1⟩ :=
  (C6_put_throw_cases cfgStd ⟨[[1]], 1⟩ (.str "x")).1.mpr
    (Or.inr (Or.inl ⟨"x", rfl⟩))

/-- A configuration whose record-count flush threshold is 1. -/
def cfgCountOne : Cfg := ⟨"test", 100000000, 1, 10000, 10, 5000, 500, 512000000⟩

/-- C7 counterexample: with `maxCount = 1`, putting one record into an
empty buffer triggers the synchronous flush, so after `put` returns the
buffer length is 0 and the running size is 0 — not `N + 1` and `S + L`
as the claim states for every accepted put. -/
theorem C7_counterexample :
    ∃ s2 fl, put cfgCountOne ⟨[], 0⟩ (.buf [7]) = .ok s2 fl
      ∧ ¬(s2.currentSize = 0 + ([7] : List Nat).length ∧ s2.buffer.length = 0 + 1) := by
  refine ⟨⟨[], 0⟩, some [[[7]]], by decide, by decide⟩

/-- C7 (amended): an accepted `put` first appends the record — at that
point the running size is exactly `S + L` and the buffer length exactly
`N + 1` — then checks the thresholds on the appended state; when a
threshold is met or exceeded the flush runs synchronously before `put`
returns (leaving an empty buffer and dispatching the chunks of the
appended buffer), otherwise `put` returns with the appended state. -/
theorem C7_amended (cfg : Cfg) (st : WriterState) (record : JSRecord) (data : List Nat)
    (henc : encodeRecord record = some data) (hsize : data.length ≤ cfg.maxSize) :
    (WriterState.mk (st.buffer ++ [data]) (st.currentSize + data.length)).currentSize
        = st.currentSize + data.length
    ∧ (WriterState.mk (st.buffer ++ [data]) (st.currentSize + data.length)).buffer.length
        = st.buffer.length + 1
    ∧ (oneOfThresholdsReached cfg ⟨st.buffer ++ [data], st.currentSize + data.length⟩ = true →
        put cfg st record
          = .ok ⟨[], 0⟩
              (some ((splitIntoChunks cfg (st.buffer ++ [data])).map (fun c => c.records))))
    ∧ (oneOfThresholdsReached cfg ⟨st.buffer ++ [data], st.currentSize + data.length⟩ = false →
        put cfg st record = .ok ⟨st.buffer ++ [data], st.currentSize + data.length⟩ none) := by
  have hnot : ¬ cfg.maxSize < data.length := Nat.not_lt.2 hsize
  have hput : put cfg st record = putData cfg st data := by
    cases record <;> simp_all [put, encodeRecord]
  refine ⟨rfl, by simp, ?_, ?_⟩
  · intro hth
    rw [hput]
    simp only [putData, if_neg hnot, hth, if_true]
    simp [flush]
  · intro hth
    rw [hput]
    simp only [putData, if_neg hnot, hth]
    simp

/-- A configuration with a 10-byte size threshold and a 100-record count
threshold. -/
def cfgSize10 : Cfg := ⟨"test", 10, 100, 10000, 10, 5000, 500, 512000000⟩

/-- C7 (amended) witness: a 2-byte record joins a 1-byte record without
reaching any threshold. -/
theorem C7_amended_witness :
    (WriterState.mk [[1], [2, 3]] 3).currentSize = 3
    ∧ (WriterState.mk [[1], [2, 3]] 3).buffer.length = 2
    ∧ (oneOfThresholdsReached cfgSize10 ⟨[[1], [2, 3]], 3⟩ = true →
        put cfgSize10 ⟨[[1]], 1⟩ (.buf [2, 3])
          = .ok ⟨[], 0⟩
              (some ((splitIntoChunks cfgSize10 [[1], [2, 3]]).map (fun c => c.records))))
    ∧ (oneOfThresholdsReached cfgSize10 ⟨[[1], [2, 3]], 3⟩ = false →
        put cfgSize10 ⟨[[1]], 1⟩ (.buf [2, 3]) = .ok ⟨[[1], [2, 3]], 3⟩ none) :=
  C7_amended cfgSize10 ⟨[[1]], 1⟩ (.buf [2, 3]) [2, 3] rfl (by decide)

/-- C8: `flush` on an empty buffer changes nothing and dispatches no
delivery; on a non-empty buffer it resets the state to an empty buffer
and zero size and dispatches exactly one delivery per chunk of the
captured buffer. -/
theorem C8_flush_dispatch (cfg : Cfg) (st : WriterState) :
    (st.buffer = [] → flush cfg st = (st, []))
    ∧ (st.buffer ≠ [] →
        flush cfg st
          = (⟨[], 0⟩, (splitIntoChunks cfg st.buffer).map (fun chunk => chunk.records))) := by
  constructor
  · intro h; simp [flush, h]
  · intro h; simp [flush, List.length_eq_zero, h]

/-- C8 witness: both branches at concrete states. -/
theorem C8_flush_dispatch_witness :
    flush cfgStd ⟨[], 0⟩ = (⟨[], 0⟩, [])
    ∧ flush cfgStd ⟨[[1]], 1⟩
        = (⟨[], 0⟩, (splitIntoChunks cfgStd [[1]]).map (fun chunk => chunk.records)) :=
  ⟨(C8_flush_dispatch cfgStd ⟨[], 0⟩).1 rfl,
   (C8_flush_dispatch cfgStd ⟨[[1]], 1⟩).2 (by simp)⟩

/-- Options giving only a stream name and a 5,000,000-byte chunk limit. -/
def optsBatch5M : WriterOptions :=
  ⟨some "s", none, none, none, none, none, none, some 5000000⟩

/-- C9 counterexample: `maxBatchSize = 5,000,000` exceeds 4,000,000, yet
construction succeeds — the remote byte ceiling enforced by the code is
`AWS_MAX_BATCH_SIZE = 512,000,000`, not 4,000,000. -/
theorem C9_counterexample :
    (4000000 : Nat) < 5000000
    ∧ construct optsBatch5M = .ok ⟨"s", 100000000, 500, 10000, 10, 5000, 500, 5000000⟩ := by
  exact ⟨by norm_num, rfl⟩

/-- C9 (amended): construction fails exactly when the stream name is
missing or empty, a record-count option (`maxCount`/`maxBatchCount`)
exceeds the 500-record remote ceiling, or a byte-size option
(`maxSize`/`maxBatchSize`) exceeds the 512,000,000-byte remote ceiling
(`AWS_MAX_BATCH_SIZE`); otherwise it succeeds with the given or default
values. -/
theorem C9_amended (opts : WriterOptions) :
    AWS_MAX_BATCH_SIZE = 512000000
    ∧ ((∃ e, construct opts = .error e) ↔
        (truthyStr opts.streamName = false
          ∨ AWS_MAX_BATCH_SIZE < jsOrNat opts.maxSize 100000000
          ∨ AWS_MAX_BATCH_RECORDS < jsOrNat opts.maxCount 500
          ∨ AWS_MAX_BATCH_RECORDS < jsOrNat opts.maxBatchCount 500
          ∨ AWS_MAX_BATCH_SIZE
              < jsOrNat opts.maxBatchSize (AWS_MAX_RECORD_SIZE * AWS_MAX_BATCH_RECORDS)))
    ∧ ∀ cfg, construct opts = .ok cfg →
        cfg = ⟨opts.streamName.getD "", jsOrNat opts.maxSize 100000000,
               jsOrNat opts.maxCount 500, jsOrNat opts.maxTimeout 10000,
               jsOrNat opts.maxRetries 10, jsOrNat opts.retryInterval 5000,
               jsOrNat opts.maxBatchCount 500,
               jsOrNat opts.maxBatchSize (AWS_MAX_RECORD_SIZE * AWS_MAX_BATCH_RECORDS)⟩ := by
  refine ⟨rfl, ?_, ?_⟩ <;>
  · by_cases h1 : truthyStr opts.streamName = false <;>
      by_cases h2 : AWS_MAX_BATCH_SIZE < jsOrNat opts.maxSize 100000000 <;>
        by_cases h3 : AWS_MAX_BATCH_RECORDS < jsOrNat opts.maxCount 500 <;>
          by_cases h4 : AWS_MAX_BATCH_RECORDS < jsOrNat opts.maxBatchCount 500 <;>
            by_cases h5 : AWS_MAX_BATCH_SIZE
                < jsOrNat opts.maxBatchSize (AWS_MAX_RECORD_SIZE * AWS_MAX_BATCH_RECORDS) <;>
              simp [construct, h1, h2, h3, h4, h5]

/-- C9 (amended) witness: a valid minimal configuration succeeds with
defaults, and a missing stream name fails. -/
theorem C9_amended_witness :
    ∃ e, construct ⟨none, none, none, none, none, none, none, none⟩ = .error e :=
  (C9_amended ⟨none, none, none, none, none, none, none, none⟩).2.1.mpr (Or.inl rfl)

/-- A configuration whose byte threshold (and record ceiling) is 3. -/
def cfgSize3 : Cfg := ⟨"test", 3, 100, 10000, 10, 5000, 500, 512000000⟩

/-- C10: a record of exactly `maxSize` bytes is accepted (rejection
requires strictly greater), and putting it into an empty buffer meets
the byte threshold, so the synchronous flush fires before `put`
returns. -/
theorem C10_boundary_record (cfg : Cfg) (data : List Nat)
    (hlen : data.length = cfg.maxSize) :
    put cfg ⟨[], 0⟩ (.buf data)
      = .ok ⟨[], 0⟩ (some ((splitIntoChunks cfg [data]).map (fun c => c.records))) := by
  have hnot : ¬ cfg.maxSize < data.length := by omega
  have hth : oneOfThresholdsReached cfg ⟨[] ++ [data], 0 + data.length⟩ = true := by
    simp [oneOfThresholdsReached, hlen]
  simp only [put, putData, if_neg hnot, hth, if_true]
  simp [flush]

/-- C10 witness: a 3-byte record at `maxSize = 3` is accepted and
immediately flushed. -/
theorem C10_boundary_record_witness :
    put cfgSize3 ⟨[], 0⟩ (.buf [9, 9, 9])
      = .ok ⟨[], 0⟩ (some ((splitIntoChunks cfgSize3 [[9, 9, 9]]).map (fun c => c.records))) :=
  C10_boundary_record cfgSize3 [9, 9, 9] rfl

/-! ## Delivery engine lemmas -/

/-- Positional pairing of records with response entries: a record is
failed when its aligned response entry carries a truthy `ErrorCode`;
pairing stops at the shorter list. -/
def failedAux : List RecordData → List (Option String) → List RecordData
  | _, [] => []
  | [], _ :: _ => []
  | o :: os, resp :: resps =>
    (if errorCodeTruthy resp = true then [o] else []) ++ failedAux os resps

lemma failedAux_nil (resps : List (Option String)) : failedAux [] resps = [] := by
  cases resps <;> rfl

lemma failedAux_nil_right (origs : List RecordData) : failedAux origs [] = [] := by
  cases origs <;> rfl

/-- The response-side `enumFrom` form of `failedRecords` agrees with the
positional pairing `failedAux`. -/
lemma enumFrom_failed_resp (origs : List RecordData) :
    ∀ (resps : List (Option String)) (n : Nat),
      ((List.enumFrom n resps).filterMap fun p =>
          if errorCodeTruthy p.2 = true then origs[p.1]? else none)
        = failedAux (origs.drop n) resps := by
  intro resps
  induction resps with
  | nil => intro n; simp [failedAux_nil_right]
  | cons resp rest ih =>
    intro n
    have hcons : List.enumFrom n (resp :: rest) = (n, resp) :: List.enumFrom (n + 1) rest := rfl
    rw [hcons, List.filterMap_cons]
    cases hdrop : origs.drop n with
    | nil =>
      have hnone : origs[n]? = none := by
        have h0 := List.getElem?_drop origs n 0
        rw [hdrop] at h0
        simpa using h0.symm
      have hdrop1 : origs.drop (n + 1) = [] := by
        rw [← List.tail_drop, hdrop]; rfl
      by_cases hr : errorCodeTruthy resp = true <;>
        simp [hr, hnone, ih (n + 1), hdrop1, failedAux_nil, failedAux]
    | cons o os =>
      have hsome : origs[n]? = some o := by
        have h0 := List.getElem?_drop origs n 0
        rw [hdrop] at h0
        simpa using h0.symm
      have hdrop1 : origs.drop (n + 1) = os := by
        rw [← List.tail_drop, hdrop]; rfl
      by_cases hr : errorCodeTruthy resp = true <;>
        simp [hr, hsome, ih (n + 1), hdrop1, failedAux]

/-- The record-side `enumFrom` form (each record kept when its aligned
response entry is truthy) also agrees with `failedAux`. -/
lemma enumFrom_failed_rec (resps : List (Option String)) :
    ∀ (origs : List RecordData) (n : Nat),
      ((List.enumFrom n origs).filterMap fun p =>
          if errorCodeTruthy (resps.getD p.1 none) = true then some p.2 else none)
        = failedAux origs (resps.drop n) := by
  intro origs
  induction origs with
  | nil => intro n; simp [failedAux_nil]
  | cons o os ih =>
    intro n
    have hcons : List.enumFrom n (o :: os) = (n, o) :: List.enumFrom (n + 1) os := rfl
    have ih2 := ih (n + 1)
    simp only [List.getD_eq_getElem?_getD] at ih2 ⊢
    rw [hcons, List.filterMap_cons]
    cases hdrop : resps.drop n with
    | nil =>
      have hnone : resps[n]? = none := by
        have h0 := List.getElem?_drop resps n 0
        rw [hdrop] at h0
        simpa using h0.symm
      have hdrop1 : resps.drop (n + 1) = [] := by
        rw [← List.tail_drop, hdrop]; rfl
      have hcond : errorCodeTruthy (resps[n]?.getD none) = false := by
        rw [hnone]; rfl
      simp [hcond, ih2, hdrop1, failedAux_nil_right]
    | cons rsp rs =>
      have hsome : resps[n]? = some rsp := by
        have h0 := List.getElem?_drop resps n 0
        rw [hdrop] at h0
        simpa using h0.symm
      have hdrop1 : resps.drop (n + 1) = rs := by
        rw [← List.tail_drop, hdrop]; rfl
      have hcond : errorCodeTruthy (resps[n]?.getD none) = errorCodeTruthy rsp := by
        rw [hsome]; rfl
      by_cases hr : errorCodeTruthy rsp = true <;>
        simp [hcond, hr, ih2, hdrop1, failedAux]

/-- Lemma: `failedRecords` is the positional pairing. -/
lemma failedRecords_eq_aux (origs : List RecordData) (resps : List (Option String)) :
    failedRecords origs resps = failedAux origs resps := by
  have h := enumFrom_failed_resp origs resps 0
  simpa [failedRecords, List.enum] using h

/-- Any error value escaping `deliver` is non-retryable (it is the
internal exhaustion `Error`, whose `retryable` field is `undefined`), so
an enclosing `catch` that receives it resolves silently. -/
lemma deliver_error_not_retryable (cfg : Cfg) (collab : Nat → CallResult) :
    ∀ (n : Nat) (records : List RecordData) (retry : Nat),
      cfg.maxRetries + 2 - retry ≤ n →
      ∀ e, (deliver cfg collab records retry).1 = .error e → canRetry e = false := by
  intro n
  induction n with
  | zero =>
    intro records retry h e
    have hex : cfg.maxRetries < retry := by omega
    simp only [deliver, dif_pos hex]
    intro he
    injection he with he2
    subst he2
    rfl
  | succ n ih =>
    intro records retry h e
    by_cases hex : cfg.maxRetries < retry
    · simp only [deliver, dif_pos hex]
      intro he
      injection he with he2
      subst he2
      rfl
    · simp only [deliver, dif_neg hex]
      rcases hcol : collab retry with responses | err
      · -- fulfilment: the then-branch result, re-routed through catch on rejection
        simp only [hcol]
        rcases hrf : (retryFailedRecords cfg collab records responses (retry + 1)).1
          with e2 | u
        · have he2 : canRetry e2 = false := by
            revert hrf
            simp only [retryFailedRecords]
            split
            · intro hrf
              exact ih _ (retry + 1) (by omega) e2 hrf
            · intro hrf
              simp at hrf
          simp only [hrf, handleGeneralFailure, he2]
          simp
        · simp [hrf]
      · -- rejection of the remote call itself
        simp only [hcol, handleGeneralFailure]
        split
        · intro he
          exact ih records (retry + 1) (by omega) e he
        · simp

/-- When every remote call rejects with a retryable error, each level
makes one call, waits `retryInterval`, and recurses with the same
records, until the budget check fails with the exhaustion error. -/
lemma deliver_all_retryable_reject (cfg : Cfg) (collab : Nat → CallResult)
    (records : List RecordData)
    (hcollab : ∀ k, ∃ err, collab k = CallResult.reject err ∧ canRetry err = true) :
    ∀ (n retry : Nat), cfg.maxRetries + 1 - retry = n → retry ≤ cfg.maxRetries + 1 →
      deliver cfg collab records retry
        = (.error (.exhausted records.length cfg.streamName cfg.maxRetries),
           (List.replicate n [Event.call records, Event.wait cfg.retryInterval]).flatten) := by
  intro n
  induction n with
  | zero =>
    intro retry h hle
    have hex : cfg.maxRetries < retry := by omega
    simp [deliver, dif_pos hex]
  | succ n ih =>
    intro retry h hle
    have hex : ¬ cfg.maxRetries < retry := by omega
    obtain ⟨err, hc, hr⟩ := hcollab retry
    simp only [deliver, dif_neg hex, hc]
    simp only [handleGeneralFailure, hr, if_true]
    rw [ih (retry + 1) (by omega) (by omega)]
    simp [List.replicate_succ]

/-- C2: when the collaborator fails every call with a retryable error,
`deliver` starting at attempt 0 performs exactly `maxRetries + 1` remote
calls, each re-sending the same full record set and each followed by a
`retryInterval` wait, and then settles with the exhaustion error naming
the record count, the stream, and the retry budget. -/
theorem C2_retryable_exhaustion (cfg : Cfg) (collab : Nat → CallResult)
    (records : List RecordData)
    (hcollab : ∀ k, ∃ err, collab k = CallResult.reject err ∧ canRetry err = true) :
    deliver cfg collab records 0
      = (.error (.exhausted records.length cfg.streamName cfg.maxRetries),
         (List.replicate (cfg.maxRetries + 1)
           [Event.call records, Event.wait cfg.retryInterval]).flatten) :=
  deliver_all_retryable_reject cfg collab records hcollab (cfg.maxRetries + 1) 0
    (by omega) (by omega)

/-- A configuration with a retry budget of 1 and a 7 ms retry delay. -/
def cfgRetry1 : Cfg := ⟨"test", 100000000, 500, 10000, 1, 7, 500, 512000000⟩

/-- C2 witness: two records, every call rejected with a retryable error,
budget 1: two calls of the full set, each followed by the 7 ms wait,
then the exhaustion error. -/
theorem C2_retryable_exhaustion_witness :
    deliver cfgRetry1 (fun _ => CallResult.reject (RejectVal.external true)) [[1], [2]] 0
      = (.error (.exhausted 2 "test" 1),
         [Event.call [[1], [2]], Event.wait 7, Event.call [[1], [2]], Event.wait 7]) := by
  have h := C2_retryable_exhaustion cfgRetry1
    (fun _ => CallResult.reject (RejectVal.external true)) [[1], [2]]
    (fun k => ⟨RejectVal.external true, rfl, rfl⟩)
  exact h

/-- C3: for an attempt whose remote call returns a per-record outcome
list, the failed subset is exactly the positionally aligned set of
records whose entry carries a truthy (non-empty) error code; the engine
makes the one call and then, when the failed subset is empty, stops with
no further events; when it is a proper non-empty subset it immediately
re-delivers exactly that subset at attempt `retry + 1`; and when every
record failed it first waits `retryInterval`. -/
theorem C3_partial_failure_retry (cfg : Cfg) (collab : Nat → CallResult)
    (records : List RecordData) (responses : List (Option String)) (retry : Nat)
    (hretry : ¬ cfg.maxRetries < retry)
    (hcall : collab retry = CallResult.resolve responses) :
    (failedRecords records responses
      = records.enum.filterMap fun p =>
          if errorCodeTruthy (responses.getD p.1 none) = true then some p.2 else none)
    ∧ (deliver cfg collab records retry).2
      = Event.call records ::
          (if (failedRecords records responses).length = 0 then []
           else (if (failedRecords records responses).length = records.length
                 then [Event.wait cfg.retryInterval] else [])
             ++ (deliver cfg collab (failedRecords records responses) (retry + 1)).2)
    ∧ ((failedRecords records responses).length = 0 →
        deliver cfg collab records retry = (.ok (), [Event.call records])) := by
  have hunfold : deliver cfg collab records retry
      = match (retryFailedRecords cfg collab records responses (retry + 1)).1 with
        | .ok _ =>
          (.ok (), .call records ::
            (retryFailedRecords cfg collab records responses (retry + 1)).2)
        | .error e =>
          ((handleGeneralFailure cfg collab records e (retry + 1)).1,
           .call records ::
             ((retryFailedRecords cfg collab records responses (retry + 1)).2
               ++ (handleGeneralFailure cfg collab records e (retry + 1)).2)) := by
    conv_lhs => rw [deliver]
    simp only [dif_neg hretry, hcall]
  refine ⟨?_, ?_⟩
  · rw [failedRecords_eq_aux]
    have h := enumFrom_failed_rec responses records 0
    simpa [List.enum] using h.symm
  · by_cases hzero : (failedRecords records responses).length = 0
    · have hrf : retryFailedRecords cfg collab records responses (retry + 1)
          = (.ok (), []) := by
        simp [retryFailedRecords, hzero]
      rw [hrf] at hunfold
      constructor
      · rw [hunfold]
        simp [hzero]
      · intro _
        rw [hunfold]
    · have hrf : retryFailedRecords cfg collab records responses (retry + 1)
          = ((deliver cfg collab (failedRecords records responses) (retry + 1)).1,
             (if (failedRecords records responses).length = records.length
              then [Event.wait cfg.retryInterval] else [])
               ++ (deliver cfg collab (failedRecords records responses) (retry + 1)).2) := by
        simp [retryFailedRecords, hzero]
      rw [hrf] at hunfold
      refine ⟨?_, fun hz => absurd hz hzero⟩
      rcases hd : (deliver cfg collab (failedRecords records responses) (retry + 1)).1
        with e2 | u
      · have he2 : canRetry e2 = false :=
          deliver_error_not_retryable cfg collab (cfg.maxRetries + 2)
            (failedRecords records responses) (retry + 1) (by omega) e2 hd
        have hh : handleGeneralFailure cfg collab records e2 (retry + 1) = (.ok (), []) := by
          simp [handleGeneralFailure, he2]
        rw [hunfold]
        simp only [hd, hh]
        simp [hzero]
      · rw [hunfold]
        simp only [hd]
        simp [hzero]

/-- A collaborator whose first call fails the first of two records and
whose later calls succeed. -/
def collabFirstFails : Nat → CallResult :=
  fun k => if k = 0 then .resolve [some "e", none] else .resolve [none]

/-- C3 witness: of two records the first fails; the engine re-delivers
exactly that record at attempt 1, immediately (no wait event between the
two calls). -/
theorem C3_partial_failure_retry_witness :
    failedRecords [[1], [2]] [some "e", none] = [[1]]
    ∧ (deliver cfgStd collabFirstFails [[1], [2]] 0).2
        = Event.call [[1], [2]] :: (deliver cfgStd collabFirstFails [[1]] 1).2 := by
  have h := C3_partial_failure_retry cfgStd collabFirstFails [[1], [2]] [some "e", none] 0
    (by decide) rfl
  refine ⟨by decide, ?_⟩
  have h2 := h.2.1
  rw [show failedRecords [[1], [2]] [some "e", none] = [[1]] from by decide] at h2
  simpa using h2

/-- C1 (code behaviour at the claimed scenario): a call-level failure
classified non-retryable makes no further attempts, but the delivery
settles as a silent success — `(.ok ())` with one call event and no
error — instead of surfacing a fatal `DeliveryExhausted`-class error. -/
theorem C1_nonretryable_silent_success :
    deliver cfgStd (fun _ => CallResult.reject (RejectVal.external false)) [[1]] 0
      = (.ok (), [Event.call [[1]]]) := by
  simp [deliver, handleGeneralFailure, canRetry, cfgStd]

end FirehoseWriter
